import Mathlib

/-!
Verification development for the GNIDA litigation-dashboard repository
(single source file `app.py`).

The core logic embedded here:
* `load_cases` — reads the case table and synthesizes a "Next Hearing Date"
  for open (Pending/Stayed) cases by a rejection-sampling loop over random
  day offsets 1..30, accepting only weekdays.
* `agentic_case_search` — applies the optional court / status / case-type
  equality filters and the free-text filter to the in-memory table,
  accumulating a human-readable reasoning trace.

Dates are modelled as natural numbers counting days from the demo reference
date `datetime(2025, 9, 15)`, which falls on a Monday, so Python's
`date.weekday()` of day `d` is `d % 7` (Monday = 0 .. Sunday = 6).

Missing table cells (pandas `NaN`) are modelled as `none` of `Option String`:
pandas equality comparison with `NaN` is `False`, and
`Series.str.contains(..., na=False)` yields `False` on missing values.

The pandas call `Series.str.contains(query, case=False, na=False)` uses the
default `regex=True`, i.e. the query is a regular-expression pattern matched
case-insensitively anywhere in the string.  The matcher below models the
regex fragment consisting of literal characters and the `.` wildcard, which
covers every pattern free of the other regex metacharacters.
-/

/-- One row of the input table `cases_data.csv`.  The columns used by the
embedded logic; pandas missing values are `none` (Filing Date is parsed by
`load_cases` but never used by the embedded core, so it is omitted). -/
structure Row where
  caseNo : String
  court : Option String
  status : Option String
  caseType : Option String
  petitioner : Option String
  summary : Option String
deriving DecidableEq, Repr

/-- A loaded case record: the row plus the derived "Next Hearing Date"
column, `none` when the date is absent (`pd.NaT`), otherwise the day
number of the hearing date. -/
structure Case extends Row where
  nextHearing : Option Nat
deriving DecidableEq, Repr

/-- Day number of the fixed demo reference date `TODAY = datetime(2025, 9, 15)`.
Days are counted from this date, so it is day 0; it falls on a Monday. -/
def TODAY : Nat := 0

/-- Python `date.weekday()` of day number `d` (Monday = 0 .. Sunday = 6);
valid because day 0 is a Monday. -/
def weekday (d : Nat) : Nat := d % 7

/-- One pattern atom of the modelled regex fragment: a literal character or
the `.` wildcard. -/
inductive PatChar where
  | lit (c : Char)
  | dot
deriving DecidableEq, Repr

/-- Whether a pattern atom matches one character. -/
def patCharMatches : PatChar → Char → Bool
  | .lit c, d => c == d
  | .dot, _ => true

/-- Whether the pattern matches a prefix of the character list. -/
def matchHere : List PatChar → List Char → Bool
  | [], _ => true
  | _ :: _, [] => false
  | p :: ps, c :: cs => patCharMatches p c && matchHere ps cs

/-- Regex search: whether the pattern matches starting at some position of
the character list (the semantics of `re.search`). -/
def searchPat (p : List PatChar) : List Char → Bool
  | [] => matchHere p []
  | c :: cs => matchHere p (c :: cs) || searchPat p cs

/-- Compile a query string to the modelled pattern: `.` becomes the
wildcard, every other character a literal.  Literals are lower-cased,
modelling `case=False` (`re.IGNORECASE`). -/
def parsePat (q : String) : List PatChar :=
  q.data.map (fun c => if c == '.' then PatChar.dot else PatChar.lit c.toLower)

/-- Model of `Series.str.contains(query, case=False, na=False)` on one cell:
a missing cell never matches; a present cell matches when the query pattern
is found, case-insensitively, anywhere in it. -/
def strContainsCI (cell : Option String) (query : String) : Bool :=
  match cell with
  | none => false
  | some s => searchPat (parsePat query) (s.data.map Char.toLower)

/-- The free-text predicate of `agentic_case_search` (lines 65-69 of
`app.py`): the query matches the Summary, the Petitioner, or the
Case Type cell. -/
def textPred (query : String) (r : Case) : Bool :=
  strContainsCI r.summary query || strContainsCI r.petitioner query ||
    strContainsCI r.caseType query

/-- The Court equality predicate (`results["Court"] == court_filter`;
pandas `NaN == value` is `False`). -/
def courtPred (court_filter : String) (r : Case) : Bool :=
  r.court == some court_filter

/-- The Status equality predicate (`results["Status"] == status_filter`). -/
def statusPred (status_filter : String) (r : Case) : Bool :=
  r.status == some status_filter

/-- The Case Type equality predicate
(`results["Case Type"] == case_type_filter`). -/
def caseTypePred (case_type_filter : String) (r : Case) : Bool :=
  r.caseType == some case_type_filter

/-- Model of the truthiness test `if query.strip():` — the query is
non-empty after trimming whitespace exactly when it contains some
non-whitespace character. -/
def stripNonEmpty (query : String) : Bool :=
  query.data.any (fun c => !c.isWhitespace)

/-- The search function of `app.py` lines 46-73.  `df_cases` is the loaded
table; the result is the reasoning trace paired with the filtered records.
Each guarded block of the source both appends a trace step and filters the
working set; here the two effects of each block appear as two conditionals
with the same guard. -/
def agentic_case_search (df_cases : List Case)
    (query court_filter status_filter case_type_filter : String) :
    List String × List Case :=
  let reasoning_steps : List String :=
    ["🤖 Step 1: Received litigation search request."]
  let results := df_cases
  let reasoning_steps :=
    if court_filter != "All" then
      reasoning_steps ++ ["📂 Filtered by Court: " ++ court_filter]
    else reasoning_steps
  let results :=
    if court_filter != "All" then results.filter (courtPred court_filter)
    else results
  let reasoning_steps :=
    if status_filter != "All" then
      reasoning_steps ++ ["📌 Filtered by Status: " ++ status_filter]
    else reasoning_steps
  let results :=
    if status_filter != "All" then results.filter (statusPred status_filter)
    else results
  let reasoning_steps :=
    if case_type_filter != "All" then
      reasoning_steps ++ ["🏷 Filtered by Case Type: " ++ case_type_filter]
    else reasoning_steps
  let results :=
    if case_type_filter != "All" then
      results.filter (caseTypePred case_type_filter)
    else results
  let reasoning_steps :=
    if stripNonEmpty query then
      reasoning_steps ++ ["🧠 Applied text search filter."]
    else reasoning_steps
  let results :=
    if stripNonEmpty query then results.filter (textPred query) else results
  let reasoning_steps :=
    reasoning_steps ++
      ["✅ Found " ++ toString results.length ++ " matching cases."]
  (reasoning_steps, results)

/-- The court stage of the search in isolation. -/
def courtStage (results : List Case) (court_filter : String) : List Case :=
  if court_filter != "All" then results.filter (courtPred court_filter)
  else results

/-- The status stage of the search in isolation. -/
def statusStage (results : List Case) (status_filter : String) : List Case :=
  if status_filter != "All" then results.filter (statusPred status_filter)
  else results

/-- The case-type stage of the search in isolation. -/
def caseTypeStage (results : List Case) (case_type_filter : String) :
    List Case :=
  if case_type_filter != "All" then
    results.filter (caseTypePred case_type_filter)
  else results

/-- The free-text stage of the search in isolation: applied only when the
query is non-empty after trimming (Python `if query.strip():`); note the
filter itself uses the untrimmed query, as the source does. -/
def textStage (results : List Case) (query : String) : List Case :=
  if stripNonEmpty query then results.filter (textPred query) else results

/-- Plain case-insensitive substring containment on character lists:
the first list occurs contiguously inside the second. -/
def isInfixList (pat : List Char) : List Char → Bool
  | [] => pat.isEmpty
  | c :: t => pat.isPrefixOf (c :: t) || isInfixList pat t

/-- Written from the spec's words, for comparison with the code's matcher:
the query appears, case-insensitively, as a plain substring of the string. -/
def specSubstrCI (query s : String) : Bool :=
  isInfixList (query.data.map Char.toLower) (s.data.map Char.toLower)

/-- The spec's plain-substring predicate lifted to a possibly missing cell:
a missing cell contains nothing. -/
def specFieldSub (query : String) (cell : Option String) : Bool :=
  match cell with
  | none => false
  | some s => specSubstrCI query s

/-- The metacharacters of Python regular expressions. -/
def regexMetas : List Char :=
  ['.', '^', '$', '*', '+', '?', '(', ')', '[', ']', '\x7b', '\x7d', '|',
   '\\']

/-- Whether a query string is free of regex metacharacters (on such queries
regex search coincides with plain substring search). -/
def noRegexMeta (q : String) : Bool :=
  q.data.all (fun c => !(decide (c ∈ regexMetas)))

/-- Model of `random.randint(1, 30)`: the `i`-th draw of the random stream
`g`, reduced to the range 1..30. -/
def randint30 (g : Nat → Nat) (i : Nat) : Nat :=
  1 + g i % 30

/-- Whether the `i`-th draw passes the weekday test of the rejection loop
(`date_candidate.weekday() < 5`, where the candidate is `TODAY` plus the
drawn offset). -/
def goodDraw (g : Nat → Nat) (i : Nat) : Bool :=
  weekday (TODAY + randint30 g i) < 5

/-- A random stream is fair when from every position some later draw passes
the weekday test; `random.randint(1, 30)` satisfies this with probability
one, since offsets 1..30 always contain weekdays. -/
def fairStream (g : Nat → Nat) : Prop :=
  ∀ i, ∃ j, goodDraw g (i + j) = true

/-- The index at which the rejection loop starting at draw `i` stops: the
first position at or after `i` whose draw passes the weekday test. -/
def loopIdx (g : Nat → Nat) (i : Nat)
    (h : ∃ j, goodDraw g (i + j) = true) : Nat :=
  i + Nat.find h

/-- The per-row body of `load_cases` (lines 24-33 of `app.py`), threading
the position in the random stream: a Pending/Stayed row runs the rejection
loop and receives `TODAY` plus the accepted offset as its hearing date;
every other row receives an absent date (`pd.NaT`). -/
def load_cases_from (g : Nat → Nat) (hg : fairStream g) :
    List Row → Nat → List Case
  | [], _ => []
  | row :: rest, i =>
    if row.status == some "Pending" || row.status == some "Stayed" then
      let j := loopIdx g i (hg i)
      { toRow := row, nextHearing := some (TODAY + randint30 g j) } ::
        load_cases_from g hg rest (j + 1)
    else
      { toRow := row, nextHearing := none } :: load_cases_from g hg rest i

/-- The loader `load_cases` of `app.py` lines 19-35, as a function of the
parsed rows of `cases_data.csv` and of the random stream. -/
def load_cases (rows : List Row) (g : Nat → Nat) (hg : fairStream g) :
    List Case :=
  load_cases_from g hg rows 0

/-- Modelled from the spec: the repository's data file `cases_data.csv` is
not under src, so the loaded rows are constrained only by the spec, which
states that every case number is unique within the loaded table; this
predicate captures that constraint on an input row table. -/
def uniqueCaseNos (rows : List Row) : Prop :=
  (rows.map Row.caseNo).Nodup

/-- The dashboard's global state: the cached loaded table (`df_cases`).
The session assignment map is irrelevant to the search and omitted. -/
structure AppState where
  df_cases : List Case
deriving DecidableEq, Repr

/-- The search handler as a state transformer: `agentic_case_search` starts
from `df_cases.copy()` and only filters the copy, so the handler reads the
global table and returns the state unchanged. -/
def run_search (st : AppState)
    (query court_filter status_filter case_type_filter : String) :
    (List String × List Case) × AppState :=
  ((agentic_case_search st.df_cases query court_filter status_filter
      case_type_filter), st)

/-- A constant random stream used to instantiate theorems at concrete
inputs; every draw is `randint30`-reduced to offset 1, a Tuesday. -/
def gconst : Nat → Nat := fun _ => 0

/-- A sample open (Pending) record used to instantiate the theorems. -/
def caseA : Case :=
  { caseNo := "WP-1001", court := some "High Court", status := some "Pending",
    caseType := some "Civil", petitioner := some "Ram Kumar",
    summary := some "Land dispute near sector 12", nextHearing := some 1 }

/-- A sample Decided record whose summary mentions compensation. -/
def caseB : Case :=
  { caseNo := "WP-1002", court := some "District Court",
    status := some "Decided", caseType := some "Land",
    petitioner := some "Shyam Lal",
    summary := some "Compensation for acquired land", nextHearing := none }

/-- A sample record none of whose text fields contains a literal dot. -/
def caseDot : Case :=
  { caseNo := "WP-1003", court := some "High Court", status := some "Pending",
    caseType := some "Civil", petitioner := some "Mohan",
    summary := some "abc", nextHearing := none }

/-- A sample record with missing Petitioner and Case Type cells. -/
def caseMiss : Case :=
  { caseNo := "WP-1004", court := some "High Court",
    status := some "Pending", caseType := none, petitioner := none,
    summary := some "Encroachment on green belt", nextHearing := none }

/-- A sample Pending input row. -/
def rowP : Row :=
  { caseNo := "WP-2001", court := some "High Court", status := some "Pending",
    caseType := some "Civil", petitioner := some "Gita",
    summary := some "Stay order sought" }

/-- A sample Decided input row. -/
def rowD : Row :=
  { caseNo := "WP-2002", court := some "High Court", status := some "Decided",
    caseType := some "Civil", petitioner := some "Hari",
    summary := some "Decided in favour of the authority" }

/-!  Theorems.  -/

/-- The random stream `gconst` is fair: every draw is offset 1, a weekday. -/
theorem gconst_fair : fairStream gconst :=
  fun i => ⟨0, by simp [goodDraw, randint30, weekday, TODAY, gconst]⟩

/-- Membership in a conditional filter implies membership in the base list. -/
theorem mem_of_iteFilter {c : Prop} [Decidable c] {p : Case → Bool}
    {l : List Case} {r : Case} (h : r ∈ if c then l.filter p else l) :
    r ∈ l := by
  split at h
  · exact (List.mem_filter.mp h).1
  · exact h

/-- The record part of the search result is the composition of the four
stages, in source order. -/
theorem search_snd_eq (df : List Case) (q cf sf tf : String) :
    (agentic_case_search df q cf sf tf).2 =
      textStage (caseTypeStage (statusStage (courtStage df cf) sf) tf) q :=
  rfl

/-- When the free-text stage is applied, membership in its output is
membership in its input together with the text predicate. -/
theorem mem_textStage_applied {q : String} (hq : stripNonEmpty q = true)
    {l : List Case} {r : Case} :
    r ∈ textStage l q ↔ r ∈ l ∧ textPred q r = true := by
  simp [textStage, hq, List.mem_filter]

/-- A literal-only pattern matches a prefix exactly when the character list
of its literals is a prefix. -/
theorem matchHere_map_lit (l : List Char) (cs : List Char) :
    matchHere (l.map PatChar.lit) cs = l.isPrefixOf cs := by
  induction l generalizing cs with
  | nil => cases cs <;> simp [matchHere, List.isPrefixOf]
  | cons a l ih =>
    cases cs with
    | nil => simp [matchHere, List.isPrefixOf]
    | cons b cs => simp [matchHere, List.isPrefixOf, patCharMatches, ih]

/-- Searching a literal-only pattern is substring containment. -/
theorem searchPat_map_lit (l : List Char) (hay : List Char) :
    searchPat (l.map PatChar.lit) hay = isInfixList l hay := by
  induction hay with
  | nil => cases l <;> simp [searchPat, matchHere, isInfixList]
  | cons c cs ih => simp [searchPat, isInfixList, matchHere_map_lit, ih]

/-- A metacharacter-free query compiles to a literal-only pattern. -/
theorem parsePat_eq_lit (q : String) (h : ∀ c ∈ q.data, c ≠ '.') :
    parsePat q = (q.data.map Char.toLower).map PatChar.lit := by
  rw [parsePat, List.map_map]
  apply List.map_congr_left
  intro c hc
  simp [Function.comp, h c hc]

/-- A metacharacter-free query contains no dot. -/
theorem noRegexMeta_no_dot {q : String} (hq : noRegexMeta q = true) :
    ∀ c ∈ q.data, c ≠ '.' := by
  intro c hc hcd
  have h := List.all_eq_true.mp hq c hc
  simp only [Bool.not_eq_true', decide_eq_false_iff_not] at h
  exact h (hcd ▸ by simp [regexMetas])

/-- On a metacharacter-free query, the code's matcher coincides with the
spec's plain case-insensitive substring predicate. -/
theorem strContainsCI_eq_spec {q : String} (hq : noRegexMeta q = true)
    (s : String) : strContainsCI (some s) q = specSubstrCI q s := by
  show searchPat (parsePat q) (s.data.map Char.toLower) = _
  rw [parsePat_eq_lit q (noRegexMeta_no_dot hq), searchPat_map_lit]
  rfl

/-- On a metacharacter-free query, the code's matcher on a possibly
missing cell coincides with the spec's substring predicate on that cell. -/
theorem strContainsCI_eq_specField {q : String} (hq : noRegexMeta q = true)
    (cell : Option String) : strContainsCI cell q = specFieldSub q cell := by
  cases cell with
  | none => rfl
  | some s => exact strContainsCI_eq_spec hq s

/-- On a metacharacter-free query, the free-text predicate coincides with
the spec's per-field substring disjunction. -/
theorem textPred_eq_spec {q : String} (hq : noRegexMeta q = true)
    (r : Case) :
    textPred q r =
      (specFieldSub q r.summary || specFieldSub q r.petitioner ||
        specFieldSub q r.caseType) := by
  rw [textPred, strContainsCI_eq_specField hq, strContainsCI_eq_specField hq,
    strContainsCI_eq_specField hq]

/-- C4: for every free-text query and every court, status, and case-type
filter value, each record returned by the search is a record of the loaded
table. -/
theorem C4_result_subset (df : List Case) (q cf sf tf : String) (r : Case)
    (h : r ∈ (agentic_case_search df q cf sf tf).2) : r ∈ df := by
  rw [search_snd_eq] at h
  exact mem_of_iteFilter (mem_of_iteFilter (mem_of_iteFilter
    (mem_of_iteFilter h)))

/-- C4 witness: the subset property at a concrete table and search. -/
theorem C4_witness : caseB ∈ [caseA, caseB] :=
  C4_result_subset [caseA, caseB] "compensation" "All" "Decided" "All" caseB
    (by decide)

/-- C5: the all-sentinel search (court, status, case type all "All", empty
query) returns the loaded table unchanged, in particular with the same row
count; and each categorical stage with value "All" removes nothing. -/
theorem C5_all_sentinel (df : List Case) :
    (agentic_case_search df "" "All" "All" "All").2 = df ∧
    ((agentic_case_search df "" "All" "All" "All").2).length = df.length ∧
    courtStage df "All" = df ∧ statusStage df "All" = df ∧
    caseTypeStage df "All" = df :=
  ⟨rfl, rfl, rfl, rfl, rfl⟩

/-- C6: the reasoning trace is the initial step, then one descriptive step
per applied predicate in the order court, status, case type, free text —
a step present exactly when the predicate was applied — then the final
count step. -/
theorem C6_trace_structure (df : List Case) (q cf sf tf : String) :
    (agentic_case_search df q cf sf tf).1 =
      ["🤖 Step 1: Received litigation search request."] ++
      (if cf != "All" then ["📂 Filtered by Court: " ++ cf] else []) ++
      (if sf != "All" then ["📌 Filtered by Status: " ++ sf] else []) ++
      (if tf != "All" then ["🏷 Filtered by Case Type: " ++ tf] else []) ++
      (if stripNonEmpty q then ["🧠 Applied text search filter."] else []) ++
      ["✅ Found " ++
        toString (agentic_case_search df q cf sf tf).2.length ++
        " matching cases."] := by
  simp only [agentic_case_search]
  split_ifs <;> simp

/-- C8: the search handler leaves the application state — in particular the
loaded table — unchanged, and its visible output is computed from that
table. -/
theorem C8_frame (st : AppState) (q cf sf tf : String) :
    (run_search st q cf sf tf).2 = st ∧
    (run_search st q cf sf tf).2.df_cases = st.df_cases ∧
    (run_search st q cf sf tf).1 =
      agentic_case_search st.df_cases q cf sf tf :=
  ⟨rfl, rfl, rfl⟩

/-- C1 counterexample: the query "." is non-empty after trimming and
appears as a plain substring of none of the three text fields of `caseDot`,
yet the free-text stage keeps the record — the query is interpreted as a
regular expression (pandas `str.contains` defaults to `regex=True`), in
which "." matches any character, so plain substring is not the matching
mode. -/
theorem C1_counterexample :
    stripNonEmpty "." = true ∧
    (agentic_case_search [caseDot] "." "All" "All" "All").2 = [caseDot] ∧
    (specFieldSub "." caseDot.summary || specFieldSub "." caseDot.petitioner
      || specFieldSub "." caseDot.caseType) = false :=
  ⟨by decide, by decide, by decide⟩

/-- C1 (amended): the free-text stage is applied exactly when the query is
non-empty after trimming, and removes no record otherwise; when applied it
keeps exactly the records matched by the query interpreted as a
case-insensitive regular expression over the three fields summary,
petitioner, case type; for queries free of regex metacharacters this
matching coincides with plain case-insensitive substring containment. -/
theorem C1_free_text_stage (df : List Case) (q cf sf tf : String)
    (r : Case) :
    (agentic_case_search df q cf sf tf).2 =
      textStage (caseTypeStage (statusStage (courtStage df cf) sf) tf) q ∧
    (stripNonEmpty q = false → textStage df q = df) ∧
    (stripNonEmpty q = true →
      (r ∈ textStage df q ↔ r ∈ df ∧ textPred q r = true)) ∧
    (noRegexMeta q = true →
      textPred q r =
        (specFieldSub q r.summary || specFieldSub q r.petitioner ||
          specFieldSub q r.caseType)) := by
  refine ⟨search_snd_eq df q cf sf tf, ?_, ?_, ?_⟩
  · intro hq
    simp [textStage, hq]
  · intro hq
    exact mem_textStage_applied hq
  · intro hq
    exact textPred_eq_spec hq r

/-- C1 witness: the amended statement instantiated at a concrete table and
the metacharacter-free query "civil", which matches `caseA` on its case
type, case-insensitively. -/
theorem C1_witness :
    caseA ∈ textStage [caseA] "civil" ∧
    textPred "civil" caseA =
      (specFieldSub "civil" caseA.summary ||
        specFieldSub "civil" caseA.petitioner ||
        specFieldSub "civil" caseA.caseType) :=
  ⟨((C1_free_text_stage [caseA] "civil" "All" "All" "All" caseA).2.2.1
      (by decide)).mpr ⟨by decide, by decide⟩,
    (C1_free_text_stage [caseA] "civil" "All" "All" "All" caseA).2.2.2
      (by decide)⟩

/-- C2: searching with status filter "Decided" and free-text query
"compensation" (court and case-type filters at "All") returns exactly the
records whose status equals "Decided" and where some of summary,
petitioner, case type contains "compensation" case-insensitively; when no
record satisfies both predicates the result is empty. -/
theorem C2_decided_compensation (df : List Case) :
    (∀ r : Case,
      r ∈ (agentic_case_search df "compensation" "All" "Decided" "All").2 ↔
        r ∈ df ∧ r.status = some "Decided" ∧
          (specFieldSub "compensation" r.summary ||
            specFieldSub "compensation" r.petitioner ||
            specFieldSub "compensation" r.caseType) = true) ∧
    ((∀ r ∈ df, ¬(r.status = some "Decided" ∧
        (specFieldSub "compensation" r.summary ||
          specFieldSub "compensation" r.petitioner ||
          specFieldSub "compensation" r.caseType) = true)) →
      (agentic_case_search df "compensation" "All" "Decided" "All").2 =
        []) := by
  have hmem : ∀ r : Case,
      r ∈ (agentic_case_search df "compensation" "All" "Decided" "All").2 ↔
        r ∈ df ∧ r.status = some "Decided" ∧
          (specFieldSub "compensation" r.summary ||
            specFieldSub "compensation" r.petitioner ||
            specFieldSub "compensation" r.caseType) = true := by
    intro r
    rw [search_snd_eq,
      mem_textStage_applied (q := "compensation") (by decide),
      textPred_eq_spec (by decide)]
    show r ∈ caseTypeStage (statusStage (courtStage df "All") "Decided")
        "All" ∧ _ ↔ _
    simp only [caseTypeStage, courtStage, statusStage]
    norm_num
    rw [if_neg (show ¬("Decided" = "All") by decide), List.mem_filter]
    simp [statusPred, and_assoc]
  refine ⟨hmem, fun hnone => ?_⟩
  rw [List.eq_nil_iff_forall_not_mem]
  intro r hr
  rw [hmem r] at hr
  exact hnone r hr.1 ⟨hr.2.1, hr.2.2⟩

/-- C2 witness: at a concrete two-record table, the Decided record whose
summary contains "Compensation" is returned, and on a table with no
matching record the result is empty. -/
theorem C2_witness :
    caseB ∈
      (agentic_case_search [caseA, caseB] "compensation" "All" "Decided"
        "All").2 ∧
    (agentic_case_search [caseA] "compensation" "All" "Decided" "All").2 =
      [] :=
  ⟨((C2_decided_compensation [caseA, caseB]).1 caseB).mpr
      ⟨by decide, by decide, by decide⟩,
    (C2_decided_compensation [caseA]).2 (by decide)⟩

/-- Every draw of the modelled `random.randint(1, 30)` lies in 1..30. -/
theorem randint30_range (g : Nat → Nat) (i : Nat) :
    1 ≤ randint30 g i ∧ randint30 g i ≤ 30 := by
  unfold randint30
  have h := Nat.mod_lt (g i) (show 0 < 30 by decide)
  omega

/-- The loader keeps the case numbers of the input rows, in order. -/
theorem load_cases_from_caseNo (g : Nat → Nat) (hg : fairStream g)
    (rows : List Row) (i : Nat) :
    (load_cases_from g hg rows i).map (fun c => c.caseNo) =
      rows.map Row.caseNo := by
  induction rows generalizing i with
  | nil => simp [load_cases_from]
  | cons row rest ih =>
    simp only [load_cases_from]
    split <;> simp [ih]

/-- The loader produces exactly one case per input row. -/
theorem load_cases_from_length (g : Nat → Nat) (hg : fairStream g)
    (rows : List Row) (i : Nat) :
    (load_cases_from g hg rows i).length = rows.length := by
  have h := congrArg List.length (load_cases_from_caseNo g hg rows i)
  simpa using h

/-- The hearing-date invariant of the loader body: open rows get a weekday
date in the next 30 days, all other rows get an absent date. -/
theorem load_cases_from_spec (g : Nat → Nat) (hg : fairStream g)
    (rows : List Row) (i : Nat) (c : Case)
    (hc : c ∈ load_cases_from g hg rows i) :
    ((c.status = some "Pending" ∨ c.status = some "Stayed") →
      ∃ d, c.nextHearing = some d ∧ weekday d < 5 ∧ TODAY < d ∧
        d ≤ TODAY + 30) ∧
    (¬(c.status = some "Pending" ∨ c.status = some "Stayed") →
      c.nextHearing = none) := by
  induction rows generalizing i with
  | nil => simp [load_cases_from] at hc
  | cons row rest ih =>
    simp only [load_cases_from] at hc
    split at hc
    case isTrue hopen =>
      rcases List.mem_cons.mp hc with hhead | htail
      · subst hhead
        constructor
        · intro _
          refine ⟨TODAY + randint30 g (loopIdx g i (hg i)), rfl, ?_, ?_, ?_⟩
          · have hgd := Nat.find_spec (hg i)
            exact of_decide_eq_true hgd
          · have h1 := (randint30_range g (loopIdx g i (hg i))).1
            omega
          · have h2 := (randint30_range g (loopIdx g i (hg i))).2
            omega
        · intro hno
          exfalso
          apply hno
          simpa only [Bool.or_eq_true, beq_iff_eq] using hopen
      · exact ih _ htail
    case isFalse hopen =>
      rcases List.mem_cons.mp hc with hhead | htail
      · subst hhead
        constructor
        · intro hop
          exfalso
          apply hopen
          simpa only [Bool.or_eq_true, beq_iff_eq] using hop
        · intro _
          rfl
      · exact ih _ htail

/-- C3: in the loaded table, every Pending or Stayed record has a present
next-hearing date that falls on a weekday, strictly after the reference
date and at most 30 days after it; every record with any other status has
an absent next-hearing date. -/
theorem C3_hearing_dates (rows : List Row) (g : Nat → Nat)
    (hg : fairStream g) (c : Case) (hc : c ∈ load_cases rows g hg) :
    ((c.status = some "Pending" ∨ c.status = some "Stayed") →
      ∃ d, c.nextHearing = some d ∧ weekday d < 5 ∧ TODAY < d ∧
        d ≤ TODAY + 30) ∧
    (¬(c.status = some "Pending" ∨ c.status = some "Stayed") →
      c.nextHearing = none) :=
  load_cases_from_spec g hg rows 0 c hc

/-- C3 witness: a concrete two-row table loaded with the constant stream
contains a record whose hearing date satisfies the invariant. -/
theorem C3_witness :
    ∃ c, c ∈ load_cases [rowP, rowD] gconst gconst_fair ∧
      ∃ d, c.nextHearing = some d ∧ weekday d < 5 ∧ TODAY < d ∧
        d ≤ TODAY + 30 := by
  have hmem :
      ({ toRow := rowP,
         nextHearing :=
           some (TODAY + randint30 gconst (loopIdx gconst 0
             (gconst_fair 0))) } : Case) ∈
        load_cases [rowP, rowD] gconst gconst_fair := by
    simp only [load_cases, load_cases_from]
    rw [if_pos (by decide)]
    exact List.mem_cons_self _ _
  exact ⟨_, hmem,
    (C3_hearing_dates [rowP, rowD] gconst gconst_fair _ hmem).1
      (Or.inl rfl)⟩

/-- C7: when the input rows carry pairwise distinct case numbers — the data
file itself is not in the sources, and the spec states its case numbers are
unique — the loaded table's case numbers are pairwise distinct: no two
distinct records share one. -/
theorem C7_unique_case_numbers (rows : List Row) (g : Nat → Nat)
    (hg : fairStream g) (hu : uniqueCaseNos rows) :
    ((load_cases rows g hg).map (fun c => c.caseNo)).Nodup := by
  rw [load_cases, load_cases_from_caseNo]
  exact hu

/-- C7 witness: uniqueness of the loaded case numbers at a concrete
two-row table. -/
theorem C7_witness :
    ((load_cases [rowP, rowD] gconst gconst_fair).map
      (fun c => c.caseNo)).Nodup :=
  C7_unique_case_numbers [rowP, rowD] gconst gconst_fair
    (by unfold uniqueCaseNos; decide)

/-- C9: the weekday-rejection loop terminates: every 30-day window of
offsets 1..30 contains a weekday regardless of the weekday of its start,
every draw lies in 1..30, the loop stops at the first draw at or after its
start that passes the weekday test (rejecting only the finitely many draws
before it), and the loader therefore produces one case per record. -/
theorem C9_loop_terminates :
    (∀ w : Nat, ∃ d, 1 ≤ d ∧ d ≤ 30 ∧ (w + d) % 7 < 5) ∧
    (∀ (g : Nat → Nat) (i : Nat),
      1 ≤ randint30 g i ∧ randint30 g i ≤ 30) ∧
    (∀ (g : Nat → Nat) (i : Nat) (h : ∃ j, goodDraw g (i + j) = true),
      i ≤ loopIdx g i h ∧ goodDraw g (loopIdx g i h) = true ∧
      ∀ k, i ≤ k → k < loopIdx g i h → goodDraw g k = false) ∧
    (∀ (rows : List Row) (g : Nat → Nat) (hg : fairStream g),
      (load_cases rows g hg).length = rows.length) := by
  refine ⟨?_, randint30_range, ?_, ?_⟩
  · intro w
    refine ⟨(7 - w % 7) % 7 + 1, by omega, by omega, by omega⟩
  · intro g i h
    refine ⟨Nat.le_add_right i _, Nat.find_spec h, ?_⟩
    intro k hik hk
    have hL : loopIdx g i h = i + Nat.find h := rfl
    have hmin := Nat.find_min h (m := k - i) (by omega)
    have heq : i + (k - i) = k := by omega
    rw [heq] at hmin
    exact Bool.eq_false_iff.mpr hmin
  · intro rows g hg
    rw [load_cases]
    exact load_cases_from_length g hg rows 0

/-- C9 witness: the loop at the constant stream stops at a weekday draw and
the loader preserves the record count on a concrete table. -/
theorem C9_witness :
    0 ≤ loopIdx gconst 0 (gconst_fair 0) ∧
    goodDraw gconst (loopIdx gconst 0 (gconst_fair 0)) = true ∧
    (load_cases [rowP, rowD] gconst gconst_fair).length =
      [rowP, rowD].length := by
  obtain ⟨-, -, h3, h4⟩ := C9_loop_terminates
  exact ⟨(h3 gconst 0 (gconst_fair 0)).1, (h3 gconst 0 (gconst_fair 0)).2.1,
    h4 [rowP, rowD] gconst gconst_fair⟩

/-- C10: the free-text stage is total on records with missing cells: a
missing cell never matches (`na=False`), and a record it keeps always has
a present designated field the query matches. -/
theorem C10_missing_fields (df : List Case) (q : String) (r : Case)
    (hq : stripNonEmpty q = true) (hr : r ∈ textStage df q) :
    strContainsCI none q = false ∧
    ∃ s, (r.summary = some s ∨ r.petitioner = some s ∨
      r.caseType = some s) ∧ strContainsCI (some s) q = true := by
  refine ⟨rfl, ?_⟩
  have h := ((mem_textStage_applied hq).mp hr).2
  rw [textPred] at h
  simp only [Bool.or_eq_true] at h
  rcases h with (h1 | h2) | h3
  · cases hs : r.summary with
    | none => rw [hs] at h1; simp [strContainsCI] at h1
    | some s => rw [hs] at h1; exact ⟨s, Or.inl rfl, h1⟩
  · cases hp : r.petitioner with
    | none => rw [hp] at h2; simp [strContainsCI] at h2
    | some s => rw [hp] at h2; exact ⟨s, Or.inr (Or.inl rfl), h2⟩
  · cases ht : r.caseType with
    | none => rw [ht] at h3; simp [strContainsCI] at h3
    | some s => rw [ht] at h3; exact ⟨s, Or.inr (Or.inr rfl), h3⟩

/-- C10 witness: a record with missing petitioner and case-type cells is
kept by the query "green" through its present summary field. -/
theorem C10_witness :
    strContainsCI none "green" = false ∧
    ∃ s, (caseMiss.summary = some s ∨ caseMiss.petitioner = some s ∨
      caseMiss.caseType = some s) ∧ strContainsCI (some s) "green" = true :=
  C10_missing_fields [caseMiss] "green" caseMiss (by decide) (by decide)
